import Mathlib

/-!
Shallow embedding of the Hotkey Settings Manager found in
web/libs/app-common/src/pages/AccountSettings/sections/Hotkeys
(Key.tsx and Item.tsx).  Pure functions of the source are translated to
Lean functions; the React component state is an explicit record and the
event handlers are state transformers.  JavaScript objects used as string
maps are association lists with insertion-order preserving update, as in
the runtime.
-/

namespace Hotkeys

/-- One keyboard-shortcut record, the Hotkey interface of Key.tsx / Item.tsx. -/
structure Hotkey where
  id : String
  section' : String
  element : String
  label : String
  key : String
  mac : Option String := none
  active : Bool
  subgroup : Option String := none
  description : Option String := none
deriving Repr, DecidableEq

/-- One entry of the server override map custom_hotkeys, keyed by section:element. -/
structure CustomHotkeySetting where
  key : String
  active : Bool
  description : Option String := none
deriving Repr, DecidableEq

/-- The HotkeySettings interface. -/
structure HotkeySettings where
  autoTranslatePlatforms : Bool
deriving Repr, DecidableEq

/-- Property read on a JavaScript object used as a string map: first
matching key, none when absent. -/
def jsObjGet {α : Type} : List (String × α) → String → Option α
  | [], _ => none
  | (k', v) :: rest, k => if k' = k then some v else jsObjGet rest k

/-- Property write on a JavaScript object used as a string map: replaces
the value in place when the key exists, otherwise appends, preserving
insertion order as the runtime does. -/
def jsObjSet {α : Type} : List (String × α) → String → α → List (String × α)
  | [], k, v => [(k, v)]
  | (k', v') :: rest, k, v =>
      if k' = k then (k', v) :: rest else (k', v') :: jsObjSet rest k v

/-- Property delete on a JavaScript object used as a string map. -/
def jsObjDelete {α : Type} (m : List (String × α)) (k : String) : List (String × α) :=
  m.filter fun kv => kv.fst ≠ k

/-- The section:element lookup key built at Key.tsx lines 153 and 225. -/
def hotkeyLookupKey (h : Hotkey) : String :=
  h.section' ++ ":" ++ h.element

/-- The arrow body of the map in updateHotkeysWithCustomSettings,
Key.tsx lines 223 to 242: override key and active from a matching custom
entry, and the label from the custom description when that description
is truthy (present and non-empty); a binding without a matching entry is
returned unchanged. -/
def applyCustomSetting (customHotkeys : List (String × CustomHotkeySetting))
    (hotkey : Hotkey) : Hotkey :=
  match jsObjGet customHotkeys (hotkeyLookupKey hotkey) with
  | some customSetting =>
      let base : Hotkey :=
        { hotkey with key := customSetting.key, active := customSetting.active }
      match customSetting.description with
      | some d => if d = "" then base else { base with label := d }
      | none => base
  | none => hotkey

/-- updateHotkeysWithCustomSettings, Key.tsx lines 219 to 243. -/
def updateHotkeysWithCustomSettings (defaultHotkeys : List Hotkey)
    (customHotkeys : List (String × CustomHotkeySetting)) : List Hotkey :=
  defaultHotkeys.map (applyCustomSetting customHotkeys)

/-- The object literal assigned in the serialization loop of
saveHotkeysToAPI, Key.tsx lines 154 to 158. -/
def hotkeyEntry (hotkey : Hotkey) : CustomHotkeySetting :=
  { key := hotkey.key, active := hotkey.active, description := some hotkey.label }

/-- The serialization loop of saveHotkeysToAPI, Key.tsx lines 149 to 159:
build the custom_hotkeys object, one assignment per binding in list
order, keyed by section:element. -/
def serializeHotkeys (currentHotkeys : List Hotkey) : List (String × CustomHotkeySetting) :=
  currentHotkeys.foldl
    (fun acc hotkey => jsObjSet acc (hotkeyLookupKey hotkey) (hotkeyEntry hotkey))
    []

/-- The request body built by saveHotkeysToAPI, Key.tsx lines 161 to 167. -/
structure RequestBody where
  custom_hotkeys : List (String × CustomHotkeySetting)
  hotkey_settings : HotkeySettings
deriving Repr, DecidableEq

/-- Body construction of saveHotkeysToAPI: the settings revert to
autoTranslatePlatforms true when the hotkey list is empty (reset). -/
def buildRequestBody (currentHotkeys : List Hotkey) (currentSettings : HotkeySettings) :
    RequestBody :=
  { custom_hotkeys := serializeHotkeys currentHotkeys
    hotkey_settings :=
      if currentHotkeys.length = 0 then { autoTranslatePlatforms := true } else currentSettings }

/-- getGlobalDuplicates, Key.tsx lines 141 to 143: every binding with a
different id and exactly the same key string.  There is no filter on the
active flag. -/
def getGlobalDuplicates (hotkeys : List Hotkey) (hotkeyId newKey : String) : List Hotkey :=
  hotkeys.filter fun h => h.id != hotkeyId && h.key == newKey

/-- The DuplicateConfirmDialog state record of Key.tsx. -/
structure DuplicateConfirmDialog where
  open' : Bool
  hotkeyId : Option String
  newKey : Option String
  conflictingHotkeys : List Hotkey
deriving Repr, DecidableEq

/-- The closed dialog value used at Key.tsx lines 131 to 136 and 434 to 439. -/
def closedDialog : DuplicateConfirmDialog :=
  { open' := false, hotkeyId := none, newKey := none, conflictingHotkeys := [] }

/-- The component state of HotkeysManager that the handlers read and
write: the binding list, the edit cursor, the global toggle, the dirty
map, the settings flag and the duplicate dialog. -/
structure MgrState where
  hotkeys : List Hotkey
  editingHotkeyId : Option String
  globalEnabled : Bool
  dirtyState : List (String × Bool)
  autoTranslatePlatforms : Bool
  duplicateConfirmDialog : DuplicateConfirmDialog
deriving Repr, DecidableEq

/-- updateHotkeyKey, Key.tsx lines 404 to 427: when a binding with the
given id exists, set its key and mac to the new key, mark its section
dirty and leave edit mode; otherwise do nothing. -/
def updateHotkeyKey (st : MgrState) (hotkeyId newKey : String) : MgrState :=
  match st.hotkeys.find? (fun h => h.id == hotkeyId) with
  | none => st
  | some hotkey =>
      { st with
        hotkeys := st.hotkeys.map fun h =>
          if h.id == hotkeyId then { h with key := newKey, mac := some newKey } else h
        dirtyState := jsObjSet st.dirtyState hotkey.section' true
        editingHotkeyId := none }

/-- handleSaveHotkey, Key.tsx lines 380 to 401: with a conflict the
dialog opens and nothing else changes; without one the update is applied
at once. -/
def handleSaveHotkey (st : MgrState) (hotkeyId newKey : String) : MgrState :=
  match st.hotkeys.find? (fun h => h.id == hotkeyId) with
  | none => st
  | some _ =>
      let conflictingHotkeys := getGlobalDuplicates st.hotkeys hotkeyId newKey
      if conflictingHotkeys.length > 0 then
        { st with
          duplicateConfirmDialog :=
            { open' := true, hotkeyId := some hotkeyId, newKey := some newKey
              conflictingHotkeys := conflictingHotkeys } }
      else
        updateHotkeyKey st hotkeyId newKey

/-- handleConfirmDuplicate, Key.tsx lines 430 to 445: close the dialog,
then apply the pending update when both stored values are truthy in the
JavaScript sense (non-null and non-empty strings). -/
def handleConfirmDuplicate (st : MgrState) : MgrState :=
  let d := st.duplicateConfirmDialog
  let st' := { st with duplicateConfirmDialog := closedDialog }
  match d.hotkeyId, d.newKey with
  | some hid, some k => if hid = "" ∨ k = "" then st' else updateHotkeyKey st' hid k
  | _, _ => st'

/-- Observable outcome of one awaited saveHotkeysToAPI call as seen by
its callers: the returned result has ok true, or ok false carrying an
API-reported error, or the awaited promise rejected. -/
inductive SaveOutcome where
  | ok : SaveOutcome
  | apiError (msg : String) : SaveOutcome
  | thrown : SaveOutcome
deriving Repr, DecidableEq

/-- handleSaveSection, Key.tsx lines 463 to 504: the whole current
binding list and settings are serialized regardless of the triggering
section; only on success is the dirty flag of that section deleted, any
failure leaves the state as it was. -/
def handleSaveSection (st : MgrState) (sectionId : String) (outcome : SaveOutcome) :
    MgrState × RequestBody :=
  let body := buildRequestBody st.hotkeys { autoTranslatePlatforms := st.autoTranslatePlatforms }
  match outcome with
  | .ok => ({ st with dirtyState := jsObjDelete st.dirtyState sectionId }, body)
  | _ => (st, body)

/-- Modelled from the spec: the remote settings store behind the
updateHotkeys endpoint (an external collaborator, not code of this
repository).  The request transaction is atomic: a successful call
stores the posted body, any failed call leaves the stored value
untouched. -/
def remoteAfter (store : Option RequestBody) (body : RequestBody) (outcome : SaveOutcome) :
    Option RequestBody :=
  match outcome with
  | .ok => some body
  | _ => store

/-- handleResetToDefaults, Key.tsx lines 320 to 368: without confirmation
nothing happens; with it, the local state is set to the compiled-in
defaults before the request, and the request body is built from an empty
binding list and the old settings value.  The save outcome only selects
a toast, never touches state. -/
def handleResetToDefaults (defaults : List Hotkey) (st : MgrState) (confirmed : Bool)
    (_outcome : SaveOutcome) : MgrState × Option RequestBody :=
  if !confirmed then (st, none)
  else
    ({ st with
        hotkeys := defaults
        globalEnabled := true
        autoTranslatePlatforms := true
        dirtyState := [] },
      some (buildRequestBody [] { autoTranslatePlatforms := st.autoTranslatePlatforms }))

/-- The export envelope of handleExportHotkeys, Key.tsx lines 507 to 516. -/
structure ExportData where
  hotkeys : List Hotkey
  settings : HotkeySettings
  exportedAt : String
  version : String
deriving Repr, DecidableEq

/-- handleExportHotkeys, Key.tsx lines 507 to 539: serialize the current
bindings and settings with a timestamp and version 1.0. -/
def handleExportHotkeys (st : MgrState) (now : String) : ExportData :=
  { hotkeys := st.hotkeys
    settings := { autoTranslatePlatforms := st.autoTranslatePlatforms }
    exportedAt := now
    version := "1.0" }

/-- The ImportData interface: an envelope with optional hotkeys and
optional settings. -/
structure ImportData where
  hotkeys : Option (List Hotkey) := none
  settings : Option HotkeySettings := none
deriving Repr, DecidableEq

/-- The argument of handleImportHotkeys: a bare binding list (legacy
format) or the envelope. -/
inductive ImportPayload where
  | legacy (hotkeys : List Hotkey)
  | envelope (d : ImportData)
deriving Repr, DecidableEq

/-- Reading an exported file back as an import payload: the parsed JSON
object has the hotkeys and settings fields; exportedAt and version are
not part of ImportData and are ignored by the import handler. -/
def exportFileAsImportPayload (e : ExportData) : ImportPayload :=
  .envelope { hotkeys := some e.hotkeys, settings := some e.settings }

/-- Key.tsx line 547: the imported binding list. -/
def importedHotkeysOf : ImportPayload → List Hotkey
  | .legacy l => l
  | .envelope d => d.hotkeys.getD []

/-- Key.tsx lines 548 and 554: the imported autoTranslatePlatforms
field when defined. -/
def importedAutoTranslate : ImportPayload → Option Bool
  | .legacy _ => none
  | .envelope d => d.settings.map (·.autoTranslatePlatforms)

/-- The local state updates of handleImportHotkeys, Key.tsx lines 550 to
560: adopt the imported bindings, the imported settings flag when
defined, and recompute the global toggle. -/
def applyImportLocal (st : MgrState) (p : ImportPayload) : MgrState :=
  let importedHotkeys := importedHotkeysOf p
  { st with
    hotkeys := importedHotkeys
    autoTranslatePlatforms := (importedAutoTranslate p).getD st.autoTranslatePlatforms
    globalEnabled := importedHotkeys.all (·.active) }

/-- The SaveResult interface of Key.tsx (the untyped data field is not
modelled). -/
structure SaveResult where
  ok : Bool
  error : Option String := none
deriving Repr, DecidableEq

/-- A JavaScript exception raised while the catch block runs. -/
inductive JsException where
  | referenceError (name : String)
deriving Repr, DecidableEq

/-- The shape of an error caught at Key.tsx line 189: an object with a
response (carrying a status and an optional data.error string), an
object with a request but no response, or anything else. -/
inductive CaughtError where
  | withResponse (status : Nat) (dataError : Option String)
  | withRequest
  | other
deriving Repr, DecidableEq

/-- The catch block of saveHotkeysToAPI, Key.tsx lines 189 to 214,
evaluated under JavaScript scoping: its first statement reads the
variable isReset, so the block is parametrized by the binding that name
resolves to, none meaning the name is not declared and the read raises a
ReferenceError.  The rest embeds the message selection of lines 194 to
208 (JavaScript or-else on data.error treats the empty string as falsy). -/
def saveCatchBlock (isResetBinding : Option Bool) (error : CaughtError) :
    Except JsException SaveResult := do
  let isReset ← match isResetBinding with
    | some b => pure b
    | none => Except.error (JsException.referenceError "isReset")
  let base := if isReset then "Failed to reset hotkeys" else "Failed to save hotkeys"
  let errorMessage :=
    match error with
    | .withResponse status dataError =>
        if status = 400 then
          match dataError with
          | some s =>
              if s = "" then
                if isReset then "Invalid reset request" else "Invalid hotkeys configuration"
              else s
          | none => if isReset then "Invalid reset request" else "Invalid hotkeys configuration"
        else if status = 401 then "Authentication required"
        else if status ≥ 500 then "Server error - please try again later"
        else base
    | .withRequest => "Network error - please check your connection"
    | .other => base
  return { ok := false, error := some errorMessage }

/-- What saveHotkeysToAPI does when the awaited api.callApi call throws:
no declaration named isReset exists anywhere in Key.tsx, so the catch
block runs with that name unbound. -/
def saveHotkeysToAPIOnError (error : CaughtError) : Except JsException SaveResult :=
  saveCatchBlock none error

/-- The key capture event data read at Item.tsx line 70. -/
structure KeyEvent where
  key : String
  ctrlKey : Bool
  shiftKey : Bool
  altKey : Bool
  metaKey : Bool
deriving Repr, DecidableEq

/-- Item.tsx line 73: the bare modifier names that are skipped. -/
def isModifierKey (k : String) : Bool :=
  ["Control", "Shift", "Alt", "Meta"].contains k

/-- The toLowerCase call of Item.tsx line 82, character by character. -/
def jsToLowerCase (s : String) : String :=
  ⟨s.data.map Char.toLower⟩

/-- Item.tsx lines 76 to 84: the combination string, modifiers in the
fixed order ctrl, shift, alt, meta, then the lower-cased key, joined
with a plus sign. -/
def buildKeyCombo (e : KeyEvent) : String :=
  String.intercalate "+"
    ((if e.ctrlKey then ["ctrl"] else []) ++
     (if e.shiftKey then ["shift"] else []) ++
     (if e.altKey then ["alt"] else []) ++
     (if e.metaKey then ["meta"] else []) ++
     [jsToLowerCase e.key])

/-- The recording state of HotkeyItem: the edited key text and whether a
recording session is in progress. -/
structure ItemState where
  editedKey : String
  keyRecordingMode : Bool
deriving Repr, DecidableEq

/-- handleKeyPress, Item.tsx lines 65 to 87: outside recording mode the
event is ignored; a bare modifier keydown is skipped; the first other
keydown stores the combination and ends recording. -/
def handleKeyPress (st : ItemState) (e : KeyEvent) : ItemState :=
  if !st.keyRecordingMode then st
  else if isModifierKey e.key then st
  else { editedKey := buildKeyCombo e, keyRecordingMode := false }

/-- The state at the start of a recording session, Item.tsx lines 49 to
51 and 92 to 94. -/
def recordingStart : ItemState :=
  { editedKey := "", keyRecordingMode := true }

/-- One recording session: the keydown events processed in order from
the start state. -/
def recordSession (events : List KeyEvent) : ItemState :=
  events.foldl handleKeyPress recordingStart

/-! Concrete fixtures used by witnesses and counterexamples. -/

/-- A sample default binding. -/
def sampleDefault : Hotkey :=
  { id := "1", section' := "annotation", element := "undo", label := "Undo"
    key := "ctrl+z", active := true }

/-- A second sample default binding in the same section. -/
def sampleDefault2 : Hotkey :=
  { id := "2", section' := "annotation", element := "redo", label := "Redo"
    key := "ctrl+shift+z", active := true }

/-- A sample manager state holding the two sample bindings, with the
annotation section marked dirty. -/
def sampleState : MgrState :=
  { hotkeys := [sampleDefault, sampleDefault2]
    editingHotkeyId := none
    globalEnabled := true
    dirtyState := [("annotation", true)]
    autoTranslatePlatforms := false
    duplicateConfirmDialog := closedDialog }

/-- Two bindings sharing the same section and element but different keys. -/
def dupKeyState : MgrState :=
  { hotkeys :=
      [{ id := "1", section' := "s", element := "e", label := "L1", key := "k1", active := true },
       { id := "2", section' := "s", element := "e", label := "L2", key := "k2", active := true }]
    editingHotkeyId := none
    globalEnabled := true
    dirtyState := []
    autoTranslatePlatforms := true
    duplicateConfirmDialog := closedDialog }

/-- A state in which the binding a holds key x and the binding b holds
the empty key string. -/
def emptyKeyState : MgrState :=
  { hotkeys :=
      [{ id := "a", section' := "s", element := "e1", label := "A", key := "x", active := true },
       { id := "b", section' := "s", element := "e2", label := "B", key := "", active := true }]
    editingHotkeyId := none
    globalEnabled := true
    dirtyState := []
    autoTranslatePlatforms := true
    duplicateConfirmDialog := closedDialog }

/-- A state in which the binding a holds key x and the binding b holds
key y. -/
def conflictState : MgrState :=
  { hotkeys :=
      [{ id := "a", section' := "s", element := "e1", label := "A", key := "x", active := true },
       { id := "b", section' := "s", element := "e2", label := "B", key := "y", active := true }]
    editingHotkeyId := none
    globalEnabled := true
    dirtyState := []
    autoTranslatePlatforms := true
    duplicateConfirmDialog := closedDialog }

/-! Claim theorems. -/

/-- Claim C4, counterexample to the claim as stated: conflict detection
reports a binding whose active flag is false.  The loaded list holds one
inactive binding with key x; proposing key x for the distinct id a
returns that inactive binding in the duplicate set, while the claim says
an inactive binding is never included. -/
theorem getGlobalDuplicates_inactive_cex :
    getGlobalDuplicates
        [{ id := "b", section' := "s", element := "e", label := "B", key := "x", active := false }]
        "a" "x"
      = [{ id := "b", section' := "s", element := "e", label := "B", key := "x", active := false }] ∧
    ({ id := "b", section' := "s", element := "e", label := "B", key := "x", active := false } : Hotkey).active = false := by
  decide

/-- Claim C4, amended: the duplicate set returned by getGlobalDuplicates
is exactly the set of other loaded bindings sharing the key string,
regardless of the active flag of either binding. -/
theorem getGlobalDuplicates_members (hotkeys : List Hotkey) (hotkeyId newKey : String)
    (h : Hotkey) :
    h ∈ getGlobalDuplicates hotkeys hotkeyId newKey ↔
      h ∈ hotkeys ∧ h.id ≠ hotkeyId ∧ h.key = newKey := by
  simp [getGlobalDuplicates, List.mem_filter, Bool.and_eq_true, bne_iff_ne, beq_iff_eq,
    and_assoc]

/-- Witness for the amended C4 theorem at a concrete input: an inactive
binding with the proposed key and a different id is a member of the
duplicate set. -/
theorem getGlobalDuplicates_members_witness :
    ({ id := "b", section' := "s", element := "e", label := "B", key := "x", active := false } : Hotkey) ∈
      getGlobalDuplicates
        [{ id := "b", section' := "s", element := "e", label := "B", key := "x", active := false }]
        "a" "x" :=
  (getGlobalDuplicates_members
      [{ id := "b", section' := "s", element := "e", label := "B", key := "x", active := false }]
      "a" "x"
      { id := "b", section' := "s", element := "e", label := "B", key := "x", active := false }).mpr
    (by decide)

/-- Claim C9: whenever the awaited api.callApi call of saveHotkeysToAPI
throws and the catch block at Key.tsx line 189 runs, the very first
statement of the block reads the undeclared variable isReset, so the
block raises a ReferenceError instead of returning the failure result
with the status-derived message that lines 194 to 208 intend. -/
theorem saveHotkeysToAPIOnError_throws (error : CaughtError) :
    saveHotkeysToAPIOnError error =
      Except.error (JsException.referenceError "isReset") := rfl

/-- Claim C5: for every prior state and every save outcome, the
confirmed reset sets the local binding list to the compiled-in default
list, the settings flag to true and the dirty map to empty, and sends a
request whose override map is empty and whose settings carry
autoTranslatePlatforms true. -/
theorem handleResetToDefaults_spec (defaults : List Hotkey) (st : MgrState)
    (outcome : SaveOutcome) :
    handleResetToDefaults defaults st true outcome =
      ({ st with
          hotkeys := defaults
          globalEnabled := true
          autoTranslatePlatforms := true
          dirtyState := [] },
        some { custom_hotkeys := [], hotkey_settings := { autoTranslatePlatforms := true } }) := rfl

/-- Claim C6: reading the exported file back through the import handler
reproduces the binding list and the settings value exactly, field for
field, for every state, every import-time state and every export
timestamp. -/
theorem exportImport_roundTrip (st st2 : MgrState) (now : String) :
    (applyImportLocal st2 (exportFileAsImportPayload (handleExportHotkeys st now))).hotkeys
        = st.hotkeys ∧
    (applyImportLocal st2 (exportFileAsImportPayload (handleExportHotkeys st now))).autoTranslatePlatforms
        = st.autoTranslatePlatforms ∧
    (handleExportHotkeys st now).exportedAt = now := ⟨rfl, rfl, rfl⟩

/-- A sample override entry with a non-empty description. -/
def sampleOverride : CustomHotkeySetting :=
  { key := "meta+z", active := false, description := some "Custom Undo" }

/-- Claim C1, counterexample to the claim as stated: an override entry
whose description field is present but holds the empty string does not
replace the label, because the source guards the replacement with
JavaScript truthiness of the description, not with its presence. -/
theorem merge_emptyDescription_cex :
    (updateHotkeysWithCustomSettings [sampleDefault]
        [("annotation:undo",
          { key := "ctrl+shift+z", active := true, description := some "" })]).map Hotkey.label
      = ["Undo"] ∧
    ({ key := "ctrl+shift+z", active := true, description := some "" } :
        CustomHotkeySetting).description = some "" ∧
    ("Undo" : String) ≠ "" := by
  decide

/-- Claim C1, amended: each binding whose section:element key appears in
the override map has key and active taken from the override entry and
its label replaced by the override description when that field is
present and non-empty; all other fields, and bindings without a matching
key, are unchanged. -/
theorem updateHotkeys_merge (defaults : List Hotkey)
    (m : List (String × CustomHotkeySetting)) (i : Nat) (h : Hotkey)
    (hget : defaults[i]? = some h) :
    ∃ h', (updateHotkeysWithCustomSettings defaults m)[i]? = some h' ∧
      (match jsObjGet m (hotkeyLookupKey h) with
       | none => h' = h
       | some c =>
           h'.key = c.key ∧ h'.active = c.active ∧
           h'.label = (match c.description with
                       | some d => if d = "" then h.label else d
                       | none => h.label) ∧
           h'.id = h.id ∧ h'.section' = h.section' ∧ h'.element = h.element ∧
           h'.mac = h.mac ∧ h'.subgroup = h.subgroup ∧ h'.description = h.description) := by
  refine ⟨applyCustomSetting m h, ?_, ?_⟩
  · simp [updateHotkeysWithCustomSettings, List.getElem?_map, hget]
  · cases hm : jsObjGet m (hotkeyLookupKey h) with
    | none => simp [applyCustomSetting, hm]
    | some c =>
        cases hd : c.description with
        | none => simp [applyCustomSetting, hm, hd]
        | some d =>
            by_cases hde : d = "" <;> simp [applyCustomSetting, hm, hd, hde]

/-- Witness for the amended C1 theorem at a concrete input: the single
default binding picks up key, active and label from its override entry. -/
theorem updateHotkeys_merge_witness :
    ([sampleDefault][0]? = some sampleDefault) ∧
    ∃ h', (updateHotkeysWithCustomSettings [sampleDefault]
        [("annotation:undo", sampleOverride)])[0]? = some h' ∧
      h'.key = "meta+z" ∧ h'.active = false ∧ h'.label = "Custom Undo" := by
  refine ⟨rfl, ?_⟩
  obtain ⟨h', hh', hprop⟩ :=
    updateHotkeys_merge [sampleDefault] [("annotation:undo", sampleOverride)] 0 sampleDefault rfl
  have hprop2 : h'.key = sampleOverride.key ∧ h'.active = sampleOverride.active ∧
      h'.label = (match sampleOverride.description with
                  | some d => if d = "" then sampleDefault.label else d
                  | none => sampleDefault.label) ∧
      h'.id = sampleDefault.id ∧ h'.section' = sampleDefault.section' ∧
      h'.element = sampleDefault.element ∧ h'.mac = sampleDefault.mac ∧
      h'.subgroup = sampleDefault.subgroup ∧ h'.description = sampleDefault.description := hprop
  exact ⟨h', hh', hprop2.1, hprop2.2.1, hprop2.2.2.1⟩

/-- After recording has finished, further keydown events change nothing. -/
theorem foldl_handleKeyPress_stopped (st : ItemState) (hstop : st.keyRecordingMode = false)
    (events : List KeyEvent) :
    events.foldl handleKeyPress st = st := by
  induction events with
  | nil => rfl
  | cons e t ih =>
      have h1 : handleKeyPress st e = st := by simp [handleKeyPress, hstop]
      rw [List.foldl_cons, h1]
      exact ih

/-- Bare modifier keydowns are skipped and the session stays in
recording mode with no captured key. -/
theorem foldl_handleKeyPress_modifiers (events : List KeyEvent)
    (hmods : ∀ e ∈ events, isModifierKey e.key = true) :
    events.foldl handleKeyPress recordingStart = recordingStart := by
  induction events with
  | nil => rfl
  | cons e t ih =>
      have h1 : handleKeyPress recordingStart e = recordingStart := by
        simp [handleKeyPress, recordingStart, hmods e (by simp)]
      rw [List.foldl_cons, h1]
      exact ih fun e2 he2 => hmods e2 (by simp [he2])

/-- Claim C7: in a recording session, keydowns of bare modifiers are
ignored with recording still on, and the first non-modifier keydown ends
the session with exactly the combination string of that event, later
events changing nothing. -/
theorem recordSession_spec (events : List KeyEvent) :
    ((∀ e ∈ events, isModifierKey e.key = true) →
        recordSession events = { editedKey := "", keyRecordingMode := true }) ∧
    (∀ pre e post, events = pre ++ e :: post →
        (∀ e2 ∈ pre, isModifierKey e2.key = true) →
        isModifierKey e.key = false →
        recordSession events = { editedKey := buildKeyCombo e, keyRecordingMode := false }) := by
  constructor
  · intro hmods
    exact foldl_handleKeyPress_modifiers events hmods
  · intro pre e post hsplit hpre hnm
    subst hsplit
    unfold recordSession
    rw [List.foldl_append, foldl_handleKeyPress_modifiers pre hpre, List.foldl_cons]
    have h1 : handleKeyPress recordingStart e =
        { editedKey := buildKeyCombo e, keyRecordingMode := false } := by
      simp [handleKeyPress, recordingStart, hnm]
    rw [h1]
    exact foldl_handleKeyPress_stopped _ rfl post

/-- Witness for C7 at a concrete session: a bare Shift keydown followed
by the key A with shift held yields the single capture shift+a. -/
theorem recordSession_spec_witness :
    isModifierKey "Shift" = true ∧ isModifierKey "A" = false ∧
    recordSession
        [{ key := "Shift", ctrlKey := false, shiftKey := true, altKey := false, metaKey := false },
         { key := "A", ctrlKey := false, shiftKey := true, altKey := false, metaKey := false }]
      = { editedKey := "shift+a", keyRecordingMode := false } := by
  refine ⟨by decide, by decide, ?_⟩
  have h := (recordSession_spec
      [{ key := "Shift", ctrlKey := false, shiftKey := true, altKey := false, metaKey := false },
       { key := "A", ctrlKey := false, shiftKey := true, altKey := false, metaKey := false }]).2
      [{ key := "Shift", ctrlKey := false, shiftKey := true, altKey := false, metaKey := false }]
      { key := "A", ctrlKey := false, shiftKey := true, altKey := false, metaKey := false }
      [] rfl (by decide) (by decide)
  rw [h]
  decide

/-- Setting a key that is absent from the object appends the pair. -/
theorem jsObjSet_append {α : Type} (m : List (String × α)) (k : String) (v : α)
    (hk : k ∉ m.map Prod.fst) :
    jsObjSet m k v = m ++ [(k, v)] := by
  induction m with
  | nil => rfl
  | cons kv rest ih =>
      obtain ⟨k', v'⟩ := kv
      simp only [List.map_cons, List.mem_cons] at hk
      push_neg at hk
      obtain ⟨h1, h2⟩ := hk
      simp only [jsObjSet]
      rw [if_neg (Ne.symm h1), ih h2]
      rfl

/-- The serialization loop over bindings with pairwise distinct
section:element keys only ever appends, so it produces one pair per
binding in list order. -/
theorem serializeHotkeys_loop (l : List Hotkey) (acc : List (String × CustomHotkeySetting))
    (hnd : (acc.map Prod.fst ++ l.map hotkeyLookupKey).Nodup) :
    l.foldl (fun acc hotkey => jsObjSet acc (hotkeyLookupKey hotkey) (hotkeyEntry hotkey)) acc
      = acc ++ l.map (fun hotkey => (hotkeyLookupKey hotkey, hotkeyEntry hotkey)) := by
  induction l generalizing acc with
  | nil => simp
  | cons h t ih =>
      have hk : hotkeyLookupKey h ∉ acc.map Prod.fst := by
        intro hmem
        exact (List.nodup_append.mp hnd).2.2 hmem (by simp)
      rw [List.foldl_cons, jsObjSet_append acc _ _ hk]
      have hnd' : ((acc ++ [(hotkeyLookupKey h, hotkeyEntry h)]).map Prod.fst ++
          t.map hotkeyLookupKey).Nodup := by
        simpa [List.map_append, List.append_assoc] using hnd
      rw [ih _ hnd']
      simp

/-- With pairwise distinct section:element keys the serialized object is
exactly the binding list mapped to its entries. -/
theorem serializeHotkeys_eq_map (l : List Hotkey)
    (hnd : (l.map hotkeyLookupKey).Nodup) :
    serializeHotkeys l = l.map (fun h => (hotkeyLookupKey h, hotkeyEntry h)) := by
  have h := serializeHotkeys_loop l [] (by simpa using hnd)
  simpa [serializeHotkeys] using h

/-- Looking a binding key up in the mapped object finds the entry of
that binding, given pairwise distinct keys. -/
theorem jsObjGet_map_self (l : List Hotkey) (hnd : (l.map hotkeyLookupKey).Nodup)
    (h : Hotkey) (hmem : h ∈ l) :
    jsObjGet (l.map fun h0 => (hotkeyLookupKey h0, hotkeyEntry h0)) (hotkeyLookupKey h)
      = some (hotkeyEntry h) := by
  induction l with
  | nil => cases hmem
  | cons a t ih =>
      simp only [List.map_cons] at hnd ⊢
      simp only [jsObjGet]
      by_cases hak : hotkeyLookupKey a = hotkeyLookupKey h
      · rw [if_pos hak]
        rcases List.mem_cons.mp hmem with rfl | hmt
        · rfl
        · exfalso
          apply (List.nodup_cons.mp hnd).1
          rw [hak]
          exact List.mem_map_of_mem _ hmt
      · rw [if_neg hak]
        rcases List.mem_cons.mp hmem with rfl | hmt
        · exact absurd rfl hak
        · exact ih (List.nodup_cons.mp hnd).2 hmt

/-- Claim C2, counterexample to the claim as stated: with two bindings
sharing the section:element key s:e, the saved body holds a single entry
(the later binding wins), not one entry per binding, and the key k1 of
the first binding is not carried by the body. -/
theorem handleSaveSection_collapse_cex :
    (handleSaveSection dupKeyState "s" .ok).2.custom_hotkeys
      = [("s:e", { key := "k2", active := true, description := some "L2" })] ∧
    dupKeyState.hotkeys.length = 2 ∧
    jsObjGet (handleSaveSection dupKeyState "s" .ok).2.custom_hotkeys "s:e"
      ≠ some { key := "k1", active := true, description := some "L1" } := by
  decide

/-- Claim C2, amended: provided the bindings carry pairwise distinct
section:element keys, every save triggered from any section serializes
the entire current binding list, one entry per binding carrying that
binding key and active flag, and the body does not depend on the
triggering section. -/
theorem handleSaveSection_full_list (st : MgrState) (sectionId : String)
    (outcome : SaveOutcome) (hnd : (st.hotkeys.map hotkeyLookupKey).Nodup) :
    ((handleSaveSection st sectionId outcome).2.custom_hotkeys.length = st.hotkeys.length) ∧
    (∀ h ∈ st.hotkeys,
        jsObjGet (handleSaveSection st sectionId outcome).2.custom_hotkeys (hotkeyLookupKey h)
          = some (hotkeyEntry h)) ∧
    (∀ s2 : String, (handleSaveSection st s2 outcome).2 =
        (handleSaveSection st sectionId outcome).2) := by
  have hbody : (handleSaveSection st sectionId outcome).2
      = buildRequestBody st.hotkeys { autoTranslatePlatforms := st.autoTranslatePlatforms } := by
    cases outcome <;> rfl
  refine ⟨?_, ?_, ?_⟩
  · rw [hbody]
    simp [buildRequestBody, serializeHotkeys_eq_map st.hotkeys hnd]
  · intro h hmem
    rw [hbody]
    show jsObjGet (serializeHotkeys st.hotkeys) (hotkeyLookupKey h) = some (hotkeyEntry h)
    rw [serializeHotkeys_eq_map st.hotkeys hnd]
    exact jsObjGet_map_self st.hotkeys hnd h hmem
  · intro s2
    rw [hbody]
    cases outcome <;> rfl

/-- Witness for the amended C2 theorem at a concrete state with two
bindings: the body carries both entries whichever section triggers the
save. -/
theorem handleSaveSection_full_list_witness :
    ((sampleState.hotkeys.map hotkeyLookupKey).Nodup) ∧
    (handleSaveSection sampleState "annotation" .ok).2.custom_hotkeys.length
      = sampleState.hotkeys.length ∧
    jsObjGet (handleSaveSection sampleState "annotation" .ok).2.custom_hotkeys
        (hotkeyLookupKey sampleDefault) = some (hotkeyEntry sampleDefault) ∧
    (handleSaveSection sampleState "labeling" .ok).2 =
      (handleSaveSection sampleState "annotation" .ok).2 := by
  have h := handleSaveSection_full_list sampleState "annotation" .ok (by decide)
  exact ⟨by decide, h.1, h.2.1 sampleDefault (by decide), h.2.2 "labeling"⟩

/-- The binding list produced by updateHotkeyKey when the target id was
found: the map of Key.tsx lines 410 to 415. -/
theorem updateHotkeyKey_hotkeys_found (st : MgrState) (hotkeyId newKey : String) (hk : Hotkey)
    (hfind : st.hotkeys.find? (fun h => h.id == hotkeyId) = some hk) :
    (updateHotkeyKey st hotkeyId newKey).hotkeys =
      st.hotkeys.map fun h =>
        if h.id == hotkeyId then { h with key := newKey, mac := some newKey } else h := by
  simp [updateHotkeyKey, hfind]

/-- Claim C3, counterexample to the claim as stated: proposing the empty
key string for the binding a while the binding b already holds the empty
key opens the confirmation dialog, but confirming does not apply the
pending key: the guard at Key.tsx line 442 treats the empty string as
falsy, so the list is left unchanged after confirmation. -/
theorem confirmDuplicate_emptyKey_cex :
    getGlobalDuplicates emptyKeyState.hotkeys "a" "" ≠ [] ∧
    (handleSaveHotkey emptyKeyState "a" "").duplicateConfirmDialog.open' = true ∧
    (handleConfirmDuplicate (handleSaveHotkey emptyKeyState "a" "")).hotkeys
      = emptyKeyState.hotkeys ∧
    (updateHotkeyKey emptyKeyState "a" "").hotkeys ≠ emptyKeyState.hotkeys := by
  decide

/-- Claim C3, amended: for a loaded binding id and a non-empty proposed
key string, a conflict with any other binding leaves the list unchanged
and opens the confirmation dialog with the pending id, key and conflict
set, confirmation then applies exactly the deferred update; with no
conflict the update is applied immediately. -/
theorem handleSaveHotkey_defers (st : MgrState) (hotkeyId newKey : String)
    (hpresent : (st.hotkeys.find? fun h => h.id == hotkeyId).isSome = true)
    (hid : hotkeyId ≠ "") (hkey : newKey ≠ "") :
    (getGlobalDuplicates st.hotkeys hotkeyId newKey ≠ [] →
        (handleSaveHotkey st hotkeyId newKey).hotkeys = st.hotkeys ∧
        (handleSaveHotkey st hotkeyId newKey).duplicateConfirmDialog =
          { open' := true, hotkeyId := some hotkeyId, newKey := some newKey
            conflictingHotkeys := getGlobalDuplicates st.hotkeys hotkeyId newKey } ∧
        (handleConfirmDuplicate (handleSaveHotkey st hotkeyId newKey)).hotkeys =
          (updateHotkeyKey st hotkeyId newKey).hotkeys) ∧
    (getGlobalDuplicates st.hotkeys hotkeyId newKey = [] →
        handleSaveHotkey st hotkeyId newKey = updateHotkeyKey st hotkeyId newKey) := by
  cases hfind : st.hotkeys.find? (fun h => h.id == hotkeyId) with
  | none => rw [hfind] at hpresent; simp at hpresent
  | some hk =>
      constructor
      · intro hcon
        have hlen : 0 < (getGlobalDuplicates st.hotkeys hotkeyId newKey).length :=
          List.length_pos.mpr hcon
        have hsave : handleSaveHotkey st hotkeyId newKey =
            { st with
              duplicateConfirmDialog :=
                { open' := true, hotkeyId := some hotkeyId, newKey := some newKey
                  conflictingHotkeys := getGlobalDuplicates st.hotkeys hotkeyId newKey } } := by
          simp [handleSaveHotkey, hfind, hlen]
        refine ⟨by rw [hsave], by rw [hsave], ?_⟩
        rw [hsave]
        have hcd : handleConfirmDuplicate
            { st with
              duplicateConfirmDialog :=
                { open' := true, hotkeyId := some hotkeyId, newKey := some newKey
                  conflictingHotkeys := getGlobalDuplicates st.hotkeys hotkeyId newKey } } =
            updateHotkeyKey { st with duplicateConfirmDialog := closedDialog } hotkeyId newKey := by
          simp [handleConfirmDuplicate, hid, hkey]
        rw [hcd, updateHotkeyKey_hotkeys_found
            { st with duplicateConfirmDialog := closedDialog } hotkeyId newKey hk hfind,
          updateHotkeyKey_hotkeys_found st hotkeyId newKey hk hfind]
      · intro hcon
        simp [handleSaveHotkey, hfind, hcon, updateHotkeyKey]

/-- Witness for the amended C3 theorem at a concrete conflicted input:
proposing key y for the binding a while the binding b holds y leaves the
list unchanged, and confirming applies the deferred update. -/
theorem handleSaveHotkey_defers_witness :
    (handleSaveHotkey conflictState "a" "y").hotkeys = conflictState.hotkeys ∧
    (handleConfirmDuplicate (handleSaveHotkey conflictState "a" "y")).hotkeys =
      (updateHotkeyKey conflictState "a" "y").hotkeys := by
  have h := (handleSaveHotkey_defers conflictState "a" "y"
      (by decide) (by decide) (by decide)).1 (by decide)
  exact ⟨h.1, h.2.2⟩

/-- Claim C8, counterexample to the claim as stated: a reset whose save
request fails leaves the local state at the defaults applied before the
request, not at the state it had before the operation: the binding list,
the dirty map and the settings value all differ from their prior values. -/
theorem failedReset_overwrites_cex :
    (handleResetToDefaults [sampleDefault] sampleState true (.apiError "boom")).1.hotkeys
      ≠ sampleState.hotkeys ∧
    (handleResetToDefaults [sampleDefault] sampleState true (.apiError "boom")).1.dirtyState
      ≠ sampleState.dirtyState ∧
    (handleResetToDefaults [sampleDefault] sampleState true (.apiError "boom")).1.autoTranslatePlatforms
      ≠ sampleState.autoTranslatePlatforms := by
  decide

/-- Claim C8, amended: a failed section save leaves the whole local
state exactly as it was; a failed confirmed reset instead leaves the
local state at the compiled-in defaults that were applied before the
request; the remote store, modelled as an atomic transaction because the
server is external, is untouched by any failed call. -/
theorem failed_operation_state (st : MgrState) (sectionId : String) (outcome : SaveOutcome)
    (defaults : List Hotkey) (store : Option RequestBody) (body : RequestBody)
    (hfail : outcome ≠ SaveOutcome.ok) :
    (handleSaveSection st sectionId outcome).1 = st ∧
    (handleResetToDefaults defaults st true outcome).1 =
      { st with
        hotkeys := defaults
        globalEnabled := true
        autoTranslatePlatforms := true
        dirtyState := [] } ∧
    remoteAfter store body outcome = store := by
  cases outcome with
  | ok => exact absurd rfl hfail
  | apiError msg => exact ⟨rfl, rfl, rfl⟩
  | thrown => exact ⟨rfl, rfl, rfl⟩

/-- Witness for the amended C8 theorem at a concrete failing outcome. -/
theorem failed_operation_state_witness :
    (SaveOutcome.apiError "boom" ≠ SaveOutcome.ok) ∧
    (handleSaveSection sampleState "annotation" (.apiError "boom")).1 = sampleState ∧
    (handleResetToDefaults [sampleDefault] sampleState true (.apiError "boom")).1 =
      { sampleState with
        hotkeys := [sampleDefault]
        globalEnabled := true
        autoTranslatePlatforms := true
        dirtyState := [] } ∧
    remoteAfter none { custom_hotkeys := [], hotkey_settings := { autoTranslatePlatforms := true } }
        (.apiError "boom") = none := by
  have h := failed_operation_state sampleState "annotation" (.apiError "boom") [sampleDefault]
      none { custom_hotkeys := [], hotkey_settings := { autoTranslatePlatforms := true } }
      (by decide)
  exact ⟨by decide, h.1, h.2.1, h.2.2⟩

/-- Claim C10: applying a key update for an id present in the list keeps
length and order, sets key and mac of every binding with that id to the
new key leaving its other fields unchanged, and leaves every binding
with a different id entirely unchanged. -/
theorem updateHotkeyKey_frame (st : MgrState) (hotkeyId newKey : String) (i : Nat) (h : Hotkey)
    (hpresent : (st.hotkeys.find? fun h0 => h0.id == hotkeyId).isSome = true)
    (hget : st.hotkeys[i]? = some h) :
    ((updateHotkeyKey st hotkeyId newKey).hotkeys.length = st.hotkeys.length) ∧
    ∃ h', (updateHotkeyKey st hotkeyId newKey).hotkeys[i]? = some h' ∧
      (h.id = hotkeyId →
          h'.key = newKey ∧ h'.mac = some newKey ∧ h'.id = h.id ∧ h'.section' = h.section' ∧
          h'.element = h.element ∧ h'.label = h.label ∧ h'.active = h.active ∧
          h'.subgroup = h.subgroup ∧ h'.description = h.description) ∧
      (h.id ≠ hotkeyId → h' = h) := by
  cases hfind : st.hotkeys.find? (fun h0 => h0.id == hotkeyId) with
  | none => rw [hfind] at hpresent; simp at hpresent
  | some hk =>
      rw [updateHotkeyKey_hotkeys_found st hotkeyId newKey hk hfind]
      refine ⟨by simp, ?_⟩
      refine ⟨if h.id == hotkeyId then { h with key := newKey, mac := some newKey } else h,
        ?_, ?_, ?_⟩
      · rw [List.getElem?_map, hget]
        rfl
      · intro hidEq
        simp [hidEq]
      · intro hidNe
        simp [beq_iff_eq, hidNe]

/-- Witness for C10 at a concrete input: updating the binding a keeps
the length and leaves the binding b untouched. -/
theorem updateHotkeyKey_frame_witness :
    (updateHotkeyKey conflictState "a" "ctrl+q").hotkeys.length
      = conflictState.hotkeys.length ∧
    (updateHotkeyKey conflictState "a" "ctrl+q").hotkeys[1]? = conflictState.hotkeys[1]? := by
  have h := updateHotkeyKey_frame conflictState "a" "ctrl+q" 1
      { id := "b", section' := "s", element := "e2", label := "B", key := "y", active := true }
      (by decide) (by decide)
  refine ⟨h.1, ?_⟩
  obtain ⟨h', hh', _, hne⟩ := h.2
  rw [hh', hne (by decide)]
  decide

end Hotkeys
